import Mathlib

/-!
Shallow embedding of the authentication layer of the `openfga-rs` repository
(`src/authentication/client_credentials.rs` and `src/authentication/bearer_token.rs`).

Machine integers are modelled as `Nat`/`Int` with the explicit bounds of the Rust
types where they matter.  Timestamps are whole seconds since the Unix epoch, as
`Int`; `chrono` operations that can fail (or panic) are modelled with `Option`,
where `none` marks the panic / out-of-range case.
-/

/-- Largest value of Rust's `i64`. -/
def I64_MAX : Int := 9223372036854775807

/-- Largest whole-second magnitude representable by `chrono::TimeDelta`
(`i64::MAX` milliseconds, so `i64::MAX / 1000` seconds). -/
def timeDeltaMaxSecs : Int := 9223372036854775

/-- Timestamp (whole seconds) of `chrono::DateTime::<Utc>::MAX_UTC`
(`+262143-12-31T23:59:59.999999999Z`). -/
def dateMaxTimestamp : Int := 8210298412799

/-- Timestamp of `chrono::DateTime::<Utc>::MIN_UTC` (`-262144-01-01T00:00:00Z`). -/
def dateMinTimestamp : Int := -8334632851200

/-- Rust `i64::try_from(n: u64).unwrap_or(i64::MAX)`: the conversion fails
exactly when `n` exceeds `i64::MAX`, and the code clamps that failure. -/
def i64_try_from_u64 (n : Nat) : Int :=
  if (n : Int) ≤ I64_MAX then (n : Int) else I64_MAX

/-- Result of `chrono::Duration::new(secs, 0)` (nanos = 0): `Some` exactly when the
value lies within the `TimeDelta` bounds, `None` otherwise.  (With zero nanoseconds
the representable range is `-timeDeltaMaxSecs ≤ secs ≤ timeDeltaMaxSecs`.) -/
def durationNew (secs : Int) : Option Int :=
  if -timeDeltaMaxSecs ≤ secs ∧ secs ≤ timeDeltaMaxSecs then some secs else none

/-- Value of `chrono::Duration::try_seconds(3600 - 60).unwrap()`: 3540 seconds is
well inside the `TimeDelta` range, so the `unwrap` always succeeds. -/
def fallbackDelta : Int := 3540

/-- Model of `DateTime<Utc> + TimeDelta`.  In `chrono` the `Add` impl is
`checked_add_signed(..).expect(..)`: it panics when the sum leaves the
representable date range.  `none` models that panic. -/
def dateTimeAddSigned (ts delta : Int) : Option Int :=
  if dateMinTimestamp ≤ ts + delta ∧ ts + delta ≤ dateMaxTimestamp then
    some (ts + delta)
  else none

/-- Wire-level token response (`TokenResponse`, client_credentials.rs lines 118-124).
`expires_in` is a Rust `u64`, modelled as `Nat`. -/
structure TokenResponse where
  access_token : String
  token_type : String
  expires_in : Option Nat
  issued_token_type : Option String
deriving DecidableEq

/-- Error type `CredentialRefreshError` (client_credentials.rs lines 12-30).
`reqwest::Error` / `tokio::io::Error` payloads are modelled as their rendered
message strings; HTTP status codes (`u16`) as `Nat`. -/
inductive CredentialRefreshError where
  | invalidConfiguration (msg : String)
  | invalidRequest (msg : String)
  | nonRetryableError (code : Nat) (body : String)
  | serverError (code : Nat) (body : String)
  | parseError (msg : String)
  | invalidToken (token : String)
  | runtimeError (msg : String)
  | joinError
deriving DecidableEq

/-- Credentials (`ClientCredentials`, lines 80-95).  `HeaderMap` and
`HashMap<String, String>` are modelled as association lists; for the `HashMap`
the iteration order is the list order and keys are unique in the real map. -/
structure ClientCredentials where
  client_id : String
  client_secret : String
  token_endpoint : String
  extra_headers : List (String × String)
  extra_oauth_params : List (String × String)
deriving DecidableEq

/-- Retry configuration (`RefreshConfiguration`, lines 97-101).  `max_retry` is a
`u32`; `retry_interval` is a `Duration`, modelled as a whole number of
time units. -/
structure RefreshConfiguration where
  max_retry : Nat
  retry_interval : Nat
deriving DecidableEq

/-- Cached credential state (`ClientCredentialInterceptorState`, lines 111-116). -/
structure ClientCredentialInterceptorState where
  token : String
  token_expiry : Int
deriving DecidableEq

/-- Expiry computation performed by `refresh_token` (lines 186-192):

`Utc::now() + Duration::new(i64::try_from(expires_in.unwrap_or(3600 - 60)).unwrap_or(i64::MAX), 0).unwrap_or(Duration::try_seconds(3600 - 60).unwrap())`

`none` models the panic of the final `DateTime + TimeDelta` addition. -/
def computeTokenExpiry (now : Int) (expires_in : Option Nat) : Option Int :=
  dateTimeAddSigned now
    ((durationNew (i64_try_from_u64 (expires_in.getD (3600 - 60)))).getD fallbackDelta)

/-!
Model of Rust's `HashMap<&str, &str>` as an association list whose lookup
semantics match the map: `hashInsert` replaces the value of an existing key,
`hashExtend` (the `Extend` impl) inserts every pair in iteration order, also
replacing existing keys.
-/

/-- `HashMap::insert`: replace the entry of `k` when present, else append. -/
def hashInsert (m : List (String × String)) (k v : String) : List (String × String) :=
  if m.any (fun p => p.1 = k) then
    m.map (fun p => if p.1 = k then (k, v) else p)
  else m ++ [(k, v)]

/-- `HashMap::extend`: fold `insert` over the pairs, in iteration order. -/
def hashExtend (m : List (String × String)) (l : List (String × String)) :
    List (String × String) :=
  l.foldl (fun acc p => hashInsert acc p.1 p.2) m

/-- `HashMap` lookup. -/
def hashLookup (m : List (String × String)) (k : String) : Option String :=
  (m.find? (fun p => p.1 = k)).map (fun p => p.2)

/-- Form body built by `get_token` (client_credentials.rs lines 218-226): the three
reserved parameters are inserted first, then `extra_oauth_params` is merged in
with `HashMap::extend`. -/
def buildFormParams (c : ClientCredentials) : List (String × String) :=
  hashExtend
    (hashInsert
      (hashInsert
        (hashInsert [] "grant_type" "client_credentials")
        "client_id" c.client_id)
      "client_secret" c.client_secret)
    c.extra_oauth_params

/-!
Model of the token fetch `get_token` (lines 200-276).  Each loop iteration
builds and sends one HTTP request; the environment is a list of per-attempt
outcomes.  Real time is not modelled; instead the total number of
`tokio::time::sleep(retry_interval)` calls made is accumulated as a ghost
observation (`slept`).
-/

deriving instance DecidableEq for Except

/-- Outcome of one attempt of the token request.  `buildFailure` is a failure of
`RequestBuilder::build` (mapped to `InvalidConfiguration`), `sendFailure` a
failure of `Client::execute` (mapped to `InvalidRequest`), and `response` an
HTTP response with its status (`u16`), body text, and the result that
`Response::json::<TokenResponse>()` would give for that body. -/
inductive AttemptOutcome where
  | buildFailure (msg : String)
  | sendFailure (msg : String)
  | response (status : Nat) (body : String) (parsed : Except String TokenResponse)
deriving DecidableEq

/-- Is this attempt outcome a response with a retryable (5xx) status?  Used only
in theorem statements, mirroring the first match arm of the loop. -/
def isRetryOutcome : AttemptOutcome → Bool
  | .response status _ _ => 500 ≤ status && status ≤ 599
  | _ => false

/-- The `loop` of `get_token` (lines 229-273).  `counter` and `slept` carry the
attempt count (incremented at the top of each iteration, line 230) and the
number of `tokio::time::sleep(retry_interval)` calls made so far.  The returned
pair is the final result together with (requests made, sleeps performed, each
of duration `retry_interval`).  `none` is the model
artifact of the outcome list running out while the loop still wants another
attempt. -/
def getTokenLoop (cfg : RefreshConfiguration) :
    Nat → Nat → List AttemptOutcome →
    Option (Except CredentialRefreshError TokenResponse × Nat × Nat)
  | _, _, [] => none
  | counter, slept, o :: rest =>
    let c := counter + 1
    match o with
    | .buildFailure msg => some (.error (.invalidConfiguration msg), c, slept)
    | .sendFailure msg => some (.error (.invalidRequest msg), c, slept)
    | .response status body parsed =>
      if 500 ≤ status ∧ status ≤ 599 then
        if cfg.max_retry < c then
          some (.error (.serverError status body), c, slept)
        else
          getTokenLoop cfg c (slept + 1) rest
      else if 200 ≤ status ∧ status ≤ 299 then
        match parsed with
        | .ok t => some (.ok t, c, slept)
        | .error msg => some (.error (.parseError msg), c, slept)
      else
        some (.error (.nonRetryableError status body), c, slept)

/-- `get_token` (lines 200-276): run the loop with counter 0 and nothing slept. -/
def get_token (cfg : RefreshConfiguration) (outcomes : List AttemptOutcome) :
    Option (Except CredentialRefreshError TokenResponse × Nat × Nat) :=
  getTokenLoop cfg 0 0 outcomes

/-!
Model of `ClientCredentialInterceptor::refresh_token` and
`ClientCredentialInterceptor::call`.  The shared state behind the `RwLock`, the
count of token-endpoint exchanges performed so far (a ghost observation), and
the environment (the outcomes that successive `get_token` runs would produce,
including the thread-level `RuntimeError` / `JoinError` failures that
`refresh_token` maps around it) are bundled into a `World`.  Because
`refresh_token` holds the exclusive lock for its whole duration, each
invocation is an atomic step on this state.
-/

/-- Shared interceptor state plus the fetch environment.  `pending` lists the
outcome each successive token fetch would produce; `fetchCount` counts
token-endpoint exchanges actually performed. -/
structure World where
  cache : Option ClientCredentialInterceptorState
  fetchCount : Nat
  pending : List (Except CredentialRefreshError TokenResponse)
deriving DecidableEq

/-- `ClientCredentialInterceptor::refresh_token` (lines 160-196): take the write
lock, run `get_token` on a fresh thread/runtime (consuming the next pending
fetch outcome), and on success overwrite the cached state with the new token
and its computed expiry.  The prior cache contents are never consulted.
`none` models either the environment running out of outcomes or the panic of
the expiry computation. -/
def refresh_token (now : Int) (w : World) :
    Option (Except CredentialRefreshError TokenResponse × World) :=
  match w.pending with
  | [] => none
  | f :: rest =>
    match f with
    | .error e => some (.error e, ⟨w.cache, w.fetchCount + 1, rest⟩)
    | .ok t =>
      match computeTokenExpiry now t.expires_in with
      | none => none
      | some exp =>
        some (.ok t, ⟨some ⟨t.access_token, exp⟩, w.fetchCount + 1, rest⟩)

/-- A request's metadata map (`tonic::Request<()>` / `MetadataMap`), as an
association list of lowercase header names to values; the only key the
interceptors touch is `authorization`. -/
structure Request where
  metadata : List (String × String)
deriving DecidableEq

/-- Does the metadata already contain an `authorization` entry
(`metadata.contains_key(AUTHORIZATION.as_str())`)? -/
def hasAuthorizationKey (req : Request) : Bool :=
  req.metadata.any (fun p => p.1 = "authorization")

/-- Validity of the bytes a character contributes to an HTTP header value, per
the `http` crate's `HeaderValue::from_str` check used by
`MetadataValue::<Ascii>::from_str`: a byte is accepted when it is at least 32
and not 127, or is a horizontal tab.  Every byte of a multi-byte UTF-8
character is at least 128 and hence accepted, so on characters the check
rejects exactly the control characters below 32 (other than tab) and
DEL (127). -/
def isValidHeaderChar (c : Char) : Bool :=
  (32 ≤ c.toNat && c.toNat ≠ 127) || c.toNat = 9

/-- Does `s.parse::<MetadataValue<Ascii>>()` succeed? -/
def isValidHeaderValue (s : String) : Bool :=
  s.toList.all isValidHeaderChar

/-- Shared tail of `ClientCredentialInterceptor::call` (lines 306-315): refresh,
then attach `Bearer {access_token}` of the freshly fetched response, mapping a
header-encoding failure to `InvalidToken`. -/
def refreshAndAttach (now : Int) (req : Request) (w : World) :
    Option (Except CredentialRefreshError Request × World) :=
  match refresh_token now w with
  | none => none
  | some (.error e, w1) => some (.error e, w1)
  | some (.ok t, w1) =>
    if isValidHeaderValue ("Bearer " ++ t.access_token) then
      some (.ok ⟨hashInsert req.metadata "authorization" ("Bearer " ++ t.access_token)⟩, w1)
    else
      some (.error (.invalidToken t.access_token), w1)

/-- `ClientCredentialInterceptor::call` (lines 278-319): pass through untouched
when an `authorization` header is present; otherwise use the cached token when
it is strictly before expiry, else refresh and attach the new token. -/
def interceptorCall (now : Int) (req : Request) (w : World) :
    Option (Except CredentialRefreshError Request × World) :=
  if hasAuthorizationKey req then
    some (.ok req, w)
  else
    match w.cache with
    | some st =>
      if now < st.token_expiry then
        if isValidHeaderValue ("Bearer " ++ st.token) then
          some (.ok ⟨hashInsert req.metadata "authorization" ("Bearer " ++ st.token)⟩, w)
        else
          some (.error (.invalidToken st.token), w)
      else refreshAndAttach now req w
    | none => refreshAndAttach now req w

/-- The static-bearer interceptor (`BearerTokenInterceptor`, bearer_token.rs
lines 31-48): it holds one pre-validated header value. -/
structure BearerTokenInterceptor where
  token : String
deriving DecidableEq

/-- `BearerTokenInterceptor::new` (lines 42-47): validate `Bearer {token}` as an
ASCII metadata value. -/
def bearerTokenInterceptorNew (tok : String) : Option BearerTokenInterceptor :=
  if isValidHeaderValue ("Bearer " ++ tok) then some ⟨"Bearer " ++ tok⟩ else none

/-- `BearerTokenInterceptor::call` (lines 51-58): insert the stored value unless
an `authorization` header is already present.  The Rust method always returns
`Ok`, so the result is the request itself. -/
def bearerCall (b : BearerTokenInterceptor) (req : Request) : Request :=
  if hasAuthorizationKey req then req
  else ⟨hashInsert req.metadata "authorization" b.token⟩

/-!
String renderings.  `displayCredentialRefreshError` follows the `#[error(..)]`
format strings of the `thiserror` derive; `debugCredentialRefreshError` follows
the standard derived `Debug`; the `veil::Redact` derives on `ClientCredentials`,
`ClientCredentialInterceptorState` and `BearerTokenInterceptor` render each
bare `#[redact]` field with veil's default masking: every alphanumeric
character is replaced by an asterisk, while other characters (punctuation,
whitespace) and the string's length are preserved.  Literal braces of the
Rust `Debug` syntax are written with `\x7b` / `\x7d` escapes.  Inner quotes of
rendered strings are not re-escaped; none of the statements below depend on
that.
-/

/-- One character under veil's default redaction: alphanumerics become `'*'`,
everything else is kept. -/
def veilRedactChar (c : Char) : Char :=
  if c.isAlphanum then '*' else c

/-- veil's default redaction of a sensitive string field (bare `#[redact]`, as
used throughout this repository): mask per character, preserving length and
non-alphanumeric characters. -/
def veilRedact (s : String) : String :=
  ⟨s.toList.map veilRedactChar⟩

/-- Render a string the way Rust `Debug` renders a `String` field (quoted). -/
def quoteStr (s : String) : String := "\"" ++ s ++ "\""

/-- `Display` of `CredentialRefreshError`, from the `#[error(..)]` attributes
(lines 14-29).  Note that the `InvalidToken` and `RuntimeError` messages do not
interpolate their payloads. -/
def displayCredentialRefreshError : CredentialRefreshError → String
  | .invalidConfiguration msg => "Could not build token fetch request: " ++ msg
  | .invalidRequest msg => "Request to fetch token failed: " ++ msg
  | .nonRetryableError code body =>
      "Non-retryable code " ++ toString code ++ " while fetching token. Body: " ++ body
  | .serverError code body =>
      "Token Server error while refreshing token. Code " ++ toString code ++
        ". Body: " ++ body
  | .parseError msg => "Could not parse token response: " ++ msg
  | .invalidToken _ => "Recieved token is not valid ASCII"
  | .runtimeError _ => "Failed to start runtime for token refresh"
  | .joinError => "Could not join token fetch thread"

/-- Derived `Debug` of `CredentialRefreshError` (the `Debug` in
`#[derive(thiserror::Error, Debug)]`, line 12). -/
def debugCredentialRefreshError : CredentialRefreshError → String
  | .invalidConfiguration msg => "InvalidConfiguration(" ++ quoteStr msg ++ ")"
  | .invalidRequest msg => "InvalidRequest(" ++ quoteStr msg ++ ")"
  | .nonRetryableError code body =>
      "NonRetryableError \x7b code: " ++ toString code ++ ", body: " ++
        quoteStr body ++ " \x7d"
  | .serverError code body =>
      "ServerError \x7b code: " ++ toString code ++ ", body: " ++
        quoteStr body ++ " \x7d"
  | .parseError msg => "ParseError(" ++ quoteStr msg ++ ")"
  | .invalidToken token => "InvalidToken(" ++ quoteStr token ++ ")"
  | .runtimeError msg => "RuntimeError(" ++ quoteStr msg ++ ")"
  | .joinError => "JoinError"

/-- Render an association list the way Rust `Debug` renders a map. -/
def debugPairs (l : List (String × String)) : String :=
  "\x7b" ++
    String.intercalate ", "
      (l.map (fun p => quoteStr p.1 ++ ": " ++ quoteStr p.2)) ++
    "\x7d"

/-- `Debug` of `ClientCredentials` from `#[derive(veil::Redact)]` (line 80): the
`#[redact]`-marked `client_secret` renders masked per character by veil's
default redaction. -/
def debugClientCredentials (c : ClientCredentials) : String :=
  "ClientCredentials \x7b client_id: " ++ quoteStr c.client_id ++
    ", client_secret: " ++ quoteStr (veilRedact c.client_secret) ++
    ", token_endpoint: " ++ quoteStr c.token_endpoint ++
    ", extra_headers: " ++ debugPairs c.extra_headers ++
    ", extra_oauth_params: " ++ debugPairs c.extra_oauth_params ++ " \x7d"

/-- `Debug` of `ClientCredentialInterceptorState` from `#[derive(veil::Redact)]`
(line 111): the `#[redact]`-marked `token` renders masked per character by
veil's default redaction. -/
def debugClientCredentialInterceptorState
    (st : ClientCredentialInterceptorState) : String :=
  "ClientCredentialInterceptorState \x7b token: " ++
    quoteStr (veilRedact st.token) ++ ", token_expiry: " ++
    toString st.token_expiry ++ " \x7d"

/-- `Debug` of `BearerTokenInterceptor` from `#[derive(Clone, veil::Redact)]`
(bearer_token.rs line 31): the `#[redact]`-marked `token` (the stored
`Bearer ...` header value) renders masked per character by veil's default
redaction. -/
def debugBearerTokenInterceptor (b : BearerTokenInterceptor) : String :=
  "BearerTokenInterceptor \x7b token: " ++ quoteStr (veilRedact b.token) ++
    " \x7d"

/-- Does the character list `s` contain `pat` as a contiguous run? -/
def charsContain (pat : List Char) : List Char → Bool
  | [] => pat.isEmpty
  | c :: rest => pat.isPrefixOf (c :: rest) || charsContain pat rest

/-- Substring test on strings, used to state where credential material does or
does not appear in a rendering. -/
def strContains (s pat : String) : Bool :=
  charsContain pat.toList s.toList

/-!
Interleaving model for concurrent `call` invocations (claim C4).  Each caller
runs the code path of `ClientCredentialInterceptor::call` for a request without
an `authorization` header.  The lock granularity of the source gives each
caller two atomic steps:

* a check step under the read lock (lines 286-304): observe the cache; when a
  token is present and not expired the caller uses it and is done, otherwise it
  proceeds to refresh;
* a refresh step under the write lock (`refresh_token`, lines 160-196), atomic
  because the exclusive lock is held for the whole fetch: one token-endpoint
  exchange, then the cache is overwritten.  The fetch environment here always
  succeeds, with `expires_in = 3600` (the single-flight scenario of the claim
  has no failures).

A schedule is a list of caller indices; each entry lets that caller take its
next pending atomic step.
-/

/-- Progress of one concurrent caller. -/
inductive CallerPhase where
  | start
  | needRefresh
  | done
deriving DecidableEq

/-- Shared cache plus ghost fetch count plus each caller's progress. -/
structure ConcState where
  cache : Option ClientCredentialInterceptorState
  fetchCount : Nat
  phases : List CallerPhase
deriving DecidableEq

/-- One atomic step of caller `i` (no-op for an out-of-range index or a caller
that is already done). -/
def concStep (now : Int) (s : ConcState) (i : Nat) : ConcState :=
  match s.phases[i]? with
  | none => s
  | some .done => s
  | some .start =>
    match s.cache with
    | some st =>
      if now < st.token_expiry then
        { s with phases := s.phases.set i .done }
      else
        { s with phases := s.phases.set i .needRefresh }
    | none => { s with phases := s.phases.set i .needRefresh }
  | some .needRefresh =>
    { cache := some ⟨"fetched-token", now + 3600⟩
      fetchCount := s.fetchCount + 1
      phases := s.phases.set i .done }

/-- Run a schedule of caller steps. -/
def concRun (now : Int) (s : ConcState) (sched : List Nat) : ConcState :=
  sched.foldl (concStep now) s

/-- Number of callers that still have a step to take. -/
def pendingCallers (l : List CallerPhase) : Nat :=
  l.countP (fun p => p ≠ CallerPhase.done)

/-- Is the cache empty or expired at time `now` — the situation of claim C4
(the negation of the usability test `token_expiry > now` of `call`)? -/
def cacheUnusable (now : Int) : Option ClientCredentialInterceptorState → Bool
  | none => true
  | some st => if now < st.token_expiry then false else true

/-!
Theorems for the claims.
-/

/-- C1: the claim says the cached expiry is fetch-time + (expires_in − 60)
seconds whenever the token response carries `expires_in`, so fetch-time + 3540
for `expires_in = 3600`, with a call at fetch-time + 3541 refreshing.  The
code instead applies the 60-second margin only inside the default
(`expires_in.unwrap_or(3600 - 60)`), so for `expires_in = 3600` the cached
expiry is fetch-time + 3600 and a call at fetch-time + 3541 still uses the
cache without any token fetch; only the absent-`expires_in` case yields
fetch-time + 3540.  This contradicts the interceptor's own doc comment
("The token is refreshed automatically 60 seconds before expiration"), so it
is a bug in the code; this theorem evaluates the code at the failing input. -/
theorem c1_sixty_second_margin_only_in_default_case :
    computeTokenExpiry 1760000000 (some 3600) = some 1760003600 ∧
    computeTokenExpiry 1760000000 none = some 1760003540 ∧
    interceptorCall 1760003541 ⟨[]⟩ ⟨some ⟨"tok", 1760003600⟩, 0, []⟩ =
      some (.ok ⟨[("authorization", "Bearer tok")]⟩,
            ⟨some ⟨"tok", 1760003600⟩, 0, []⟩) :=
  ⟨by decide, by decide, by decide⟩

/-- C3: a request that already carries an `authorization` header is returned
unchanged by both interceptors — byte-identical metadata, no token fetch, and
no cache mutation (the whole world, including fetch count and cache, is
untouched). -/
theorem c3_existing_authorization_passes_through (now : Int) (req : Request)
    (w : World) (b : BearerTokenInterceptor)
    (h : hasAuthorizationKey req = true) :
    interceptorCall now req w = some (.ok req, w) ∧ bearerCall b req = req := by
  constructor
  · simp [interceptorCall, h]
  · simp [bearerCall, h]

/-- Witness for C3 at a concrete request carrying an `authorization` header. -/
theorem c3_existing_authorization_passes_through_witness :
    interceptorCall 0 ⟨[("authorization", "Bearer existing-token")]⟩ ⟨none, 0, []⟩ =
      some (.ok ⟨[("authorization", "Bearer existing-token")]⟩, ⟨none, 0, []⟩) ∧
    bearerCall ⟨"Bearer my-token"⟩ ⟨[("authorization", "Bearer existing-token")]⟩ =
      ⟨[("authorization", "Bearer existing-token")]⟩ :=
  c3_existing_authorization_passes_through 0
    ⟨[("authorization", "Bearer existing-token")]⟩ ⟨none, 0, []⟩
    ⟨"Bearer my-token"⟩ (by decide)

/-- C7: whenever the refresh fails — with any of the error outcomes the fetch
can produce (configuration error, transport failure, non-retryable rejection,
exhausted retries, parse error, runtime or join failure) — `refresh_token`
returns that error to the caller and leaves the cached credential state exactly
as it was before the refresh began. -/
theorem c7_failed_refresh_leaves_cache_unchanged (now : Int)
    (cache : Option ClientCredentialInterceptorState) (cnt : Nat)
    (e : CredentialRefreshError)
    (rest : List (Except CredentialRefreshError TokenResponse)) :
    refresh_token now ⟨cache, cnt, .error e :: rest⟩ =
      some (.error e, ⟨cache, cnt + 1, rest⟩) := rfl

/-- C8: the claim says the expiry computation completes without panicking for
every `expires_in`, clamping implausible values.  The code clamps the
`u64 → i64` conversion (so `u64::MAX` falls back to the 3540-second window) and
the `TimeDelta` construction, but the final `DateTime + TimeDelta` addition is
chrono's panicking `Add` impl: any `expires_in` large enough to overflow the
date range yet small enough for `TimeDelta` (for example 9000000000000
seconds) panics instead of being clamped.  This theorem evaluates the code at
the failing input (`none` is the panic) and at `u64::MAX` (where the clamp does
engage). -/
theorem c8_expiry_panics_in_clamp_gap :
    computeTokenExpiry 1760000000 (some 9000000000000) = none ∧
    computeTokenExpiry 1760000000 (some 18446744073709551615) = some 1760003540 :=
  ⟨by decide, by decide⟩

/-- C10: `refresh_token` never consults the cached state: for every prior cache
value (including a present, unexpired token) it consumes a token-endpoint
exchange (the fetch count rises by one) and, on success, overwrites the cache
with the freshly fetched token and its computed expiry. -/
theorem c10_refresh_token_always_fetches_and_overwrites (now : Int)
    (cache : Option ClientCredentialInterceptorState) (cnt : Nat)
    (t : TokenResponse)
    (rest : List (Except CredentialRefreshError TokenResponse)) (exp : Int)
    (h : computeTokenExpiry now t.expires_in = some exp) :
    refresh_token now ⟨cache, cnt, .ok t :: rest⟩ =
      some (.ok t, ⟨some ⟨t.access_token, exp⟩, cnt + 1, rest⟩) := by
  simp [refresh_token, h]

/-- Witness for C10: the cache holds a still-valid token, yet the refresh both
fetches (count 5 → 6) and replaces it. -/
theorem c10_refresh_token_always_fetches_and_overwrites_witness :
    refresh_token 0 ⟨some ⟨"old-token", 999999999⟩, 5,
        [.ok ⟨"tok-A", "bearer", some 3600, none⟩]⟩ =
      some (.ok ⟨"tok-A", "bearer", some 3600, none⟩,
            ⟨some ⟨"tok-A", 3600⟩, 6, []⟩) :=
  c10_refresh_token_always_fetches_and_overwrites 0
    (some ⟨"old-token", 999999999⟩) 5 ⟨"tok-A", "bearer", some 3600, none⟩ [] 3600
    (by decide)

/-- Helper for C5 and C6: while every outcome in `front` is a retryable (5xx)
response and the retry budget is not exhausted, the loop walks over `front`
making one request and one `sleep(retry_interval)` per element. -/
theorem getTokenLoop_retry_front (cfg : RefreshConfiguration)
    (front : List AttemptOutcome) :
    ∀ (counter slept : Nat) (rest : List AttemptOutcome),
      (∀ o ∈ front, isRetryOutcome o = true) →
      counter + front.length ≤ cfg.max_retry →
      getTokenLoop cfg counter slept (front ++ rest) =
        getTokenLoop cfg (counter + front.length) (slept + front.length) rest := by
  induction front with
  | nil => intro counter slept rest _ _; simp
  | cons o front ih =>
    intro counter slept rest hall hlen
    have ho : isRetryOutcome o = true := hall o (List.mem_cons_self o front)
    cases o with
    | buildFailure msg => simp [isRetryOutcome] at ho
    | sendFailure msg => simp [isRetryOutcome] at ho
    | response status body parsed =>
      have h5 : 500 ≤ status ∧ status ≤ 599 := by
        simpa [isRetryOutcome, Bool.and_eq_true, decide_eq_true_eq] using ho
      have hlen' : counter + 1 + front.length ≤ cfg.max_retry := by
        simp only [List.length_cons] at hlen; omega
      have hc : ¬ cfg.max_retry < counter + 1 := by omega
      have step :
          getTokenLoop cfg counter slept
              (AttemptOutcome.response status body parsed :: (front ++ rest)) =
            getTokenLoop cfg (counter + 1) (slept + 1) (front ++ rest) := by
        simp only [getTokenLoop]
        rw [if_pos h5, if_neg hc]
      have tail :
          getTokenLoop cfg (counter + 1) (slept + 1) (front ++ rest) =
            getTokenLoop cfg (counter + 1 + front.length) (slept + 1 + front.length)
              rest :=
        ih (counter + 1) (slept + 1) rest
          (fun x hx => hall x (List.mem_cons_of_mem _ hx)) hlen'
      rw [List.cons_append, step, tail]
      simp only [List.length_cons]
      congr 1
      · omega
      · omega

/-- C5: the token fetch retries only on 5xx statuses, sleeping
`retry_interval` between attempts, with at most `max_retry` additional attempts
after the first.  First conjunct: a run of `max_retry + 1` consecutive 5xx
responses ends in a terminal server error carrying the last status and body,
after exactly `max_retry + 1` requests and `max_retry` sleeps of
`retry_interval`.  Second conjunct: when the first `k ≤ max_retry` responses
are 5xx and the next is a 2xx whose body parses, the fetch returns that
response's token after exactly `k + 1` requests and `k` sleeps. -/
theorem c5_retry_budget_and_retry_until_success (cfg : RefreshConfiguration) :
    (∀ (front : List AttemptOutcome) (status : Nat) (body : String)
       (parsed : Except String TokenResponse),
       (∀ o ∈ front, isRetryOutcome o = true) →
       front.length = cfg.max_retry →
       500 ≤ status → status ≤ 599 →
       get_token cfg (front ++ [.response status body parsed]) =
         some (.error (.serverError status body), cfg.max_retry + 1,
               cfg.max_retry)) ∧
    (∀ (front : List AttemptOutcome) (status : Nat) (body : String)
       (t : TokenResponse) (rest : List AttemptOutcome),
       (∀ o ∈ front, isRetryOutcome o = true) →
       front.length ≤ cfg.max_retry →
       200 ≤ status → status ≤ 299 →
       get_token cfg (front ++ .response status body (.ok t) :: rest) =
         some (.ok t, front.length + 1, front.length)) := by
  constructor
  · intro front status body parsed hall hlen h500 h599
    unfold get_token
    rw [getTokenLoop_retry_front cfg front 0 0 _ hall (by omega)]
    simp only [Nat.zero_add, hlen]
    simp only [getTokenLoop]
    rw [if_pos ⟨h500, h599⟩, if_pos (by omega)]
  · intro front status body t rest hall hlen h200 h299
    unfold get_token
    rw [getTokenLoop_retry_front cfg front 0 0 _ hall (by omega)]
    simp only [Nat.zero_add]
    simp only [getTokenLoop]
    rw [if_neg (by omega), if_pos ⟨h200, h299⟩]

/-- Witness for C5 with `max_retry = 3`, `retry_interval` one unit of 7: three
503 responses followed by a terminal 500 give the server error of the last
response after 4 requests and 3 sleeps, and three 503 responses followed by a
parsing 200 give that token after 4 requests and 3 sleeps. -/
theorem c5_retry_budget_and_retry_until_success_witness :
    get_token ⟨3, 7⟩
        [.response 503 "b1" (.error "x"), .response 503 "b2" (.error "x"),
         .response 503 "b3" (.error "x"), .response 500 "final" (.error "x")] =
      some (.error (.serverError 500 "final"), 4, 3) ∧
    get_token ⟨3, 7⟩
        [.response 503 "b1" (.error "x"), .response 503 "b2" (.error "x"),
         .response 503 "b3" (.error "x"),
         .response 200 "ok" (.ok ⟨"tok-1", "bearer", some 3600, none⟩)] =
      some (.ok ⟨"tok-1", "bearer", some 3600, none⟩, 4, 3) :=
  ⟨(c5_retry_budget_and_retry_until_success ⟨3, 7⟩).1
      [.response 503 "b1" (.error "x"), .response 503 "b2" (.error "x"),
       .response 503 "b3" (.error "x")] 500 "final" (.error "x")
      (by decide) (by decide) (by decide) (by decide),
   (c5_retry_budget_and_retry_until_success ⟨3, 7⟩).2
      [.response 503 "b1" (.error "x"), .response 503 "b2" (.error "x"),
       .response 503 "b3" (.error "x")] 200 "ok"
      ⟨"tok-1", "bearer", some 3600, none⟩ []
      (by decide) (by decide) (by decide) (by decide)⟩

/-- C6: a token-endpoint response whose status is neither 2xx nor 5xx makes the
fetch return a non-retryable error carrying that status and body immediately on
the attempt that received it — after any run of prior 5xx retries, and in
particular on the very first attempt with no retry, whatever `max_retry` is. -/
theorem c6_non_2xx_non_5xx_fails_without_retry (cfg : RefreshConfiguration)
    (front : List AttemptOutcome) (status : Nat) (body : String)
    (parsed : Except String TokenResponse) (rest : List AttemptOutcome)
    (hall : ∀ o ∈ front, isRetryOutcome o = true)
    (hlen : front.length ≤ cfg.max_retry)
    (hno5 : ¬(500 ≤ status ∧ status ≤ 599))
    (hno2 : ¬(200 ≤ status ∧ status ≤ 299)) :
    get_token cfg (front ++ .response status body parsed :: rest) =
      some (.error (.nonRetryableError status body), front.length + 1,
            front.length) := by
  unfold get_token
  rw [getTokenLoop_retry_front cfg front 0 0 _ hall (by omega)]
  simp only [Nat.zero_add]
  simp only [getTokenLoop]
  rw [if_neg hno5, if_neg hno2]

/-- Witness for C6: a 401 response fails on the first attempt with no retry and
no sleep, even with a retry budget of 5. -/
theorem c6_non_2xx_non_5xx_fails_without_retry_witness :
    get_token ⟨5, 9⟩ [.response 401 "unauthorized" (.error "x")] =
      some (.error (.nonRetryableError 401 "unauthorized"), 1, 0) :=
  c6_non_2xx_non_5xx_fails_without_retry ⟨5, 9⟩ [] 401 "unauthorized"
    (.error "x") [] (by decide) (by decide) (by decide) (by decide)

/-- Helper: the replacement pass of `hashInsert` finds `(k, v)` whenever some
entry of the list has key `k`. -/
theorem find?_insertMap_self (t : List (String × String)) (k v : String)
    (ht : t.any (fun p => p.1 = k) = true) :
    (t.map (fun p => if p.1 = k then (k, v) else p)).find?
        (fun p => p.1 = k) = some (k, v) := by
  induction t with
  | nil => simp at ht
  | cons x t ih =>
    simp only [List.map_cons]
    by_cases hx : x.1 = k
    · rw [if_pos hx]
      simp [List.find?_cons]
    · rw [if_neg hx]
      have ht' : t.any (fun p => p.1 = k) = true := by
        simpa [List.any_cons, hx] using ht
      simp only [List.find?_cons, hx, decide_False]
      exact ih ht'

/-- Helper: the replacement pass of `hashInsert` does not affect a lookup of a
different key. -/
theorem find?_insertMap_ne (t : List (String × String)) (k v k' : String)
    (hne : k' ≠ k) :
    (t.map (fun p => if p.1 = k then (k, v) else p)).find?
        (fun p => p.1 = k') = t.find? (fun p => p.1 = k') := by
  have hkk' : (k = k') = False := eq_false (fun h => hne h.symm)
  induction t with
  | nil => rfl
  | cons x t ih =>
    simp only [List.map_cons]
    by_cases hx : x.1 = k
    · have hxk' : (x.1 = k') = False := by rw [hx]; exact hkk'
      rw [if_pos hx]
      simp only [List.find?_cons, hkk', hxk', decide_False]
      exact ih
    · rw [if_neg hx]
      by_cases hx' : x.1 = k'
      · simp only [List.find?_cons, hx', decide_True]
      · simp only [List.find?_cons, hx', decide_False]
        exact ih

/-- Lookup after `HashMap::insert`: the inserted key maps to the new value and
every other key is untouched. -/
theorem hashLookup_hashInsert (m : List (String × String)) (k v k' : String) :
    hashLookup (hashInsert m k v) k' =
      if k' = k then some v else hashLookup m k' := by
  unfold hashInsert hashLookup
  by_cases hany : m.any (fun p => p.1 = k) = true
  · rw [if_pos hany]
    by_cases hk : k' = k
    · subst hk
      rw [find?_insertMap_self m k' v hany]
      simp
    · rw [find?_insertMap_ne m k v k' hk, if_neg hk]
  · rw [if_neg hany]
    have hnone : m.find? (fun p => p.1 = k) = none := by
      rw [List.find?_eq_none]
      intro x hx hxk
      exact hany (List.any_eq_true.mpr ⟨x, hx, hxk⟩)
    by_cases hk : k' = k
    · subst hk
      rw [List.find?_append, hnone, Option.none_or, if_pos rfl]
      simp [List.find?_cons]
    · have hkk : (k = k') = False := eq_false (fun h => hk h.symm)
      rw [List.find?_append, if_neg hk]
      have h2 : ([(k, v)].find? (fun p => p.1 = k')) = none := by
        simp [List.find?_cons, hkk]
      rw [h2, Option.or_none]

/-- Lookup after `HashMap::extend`: with distinct keys in the extending list
(as a real `HashMap` iteration yields), a key present there gets its value
from the extension, every other key keeps the base map's value. -/
theorem hashLookup_hashExtend (l : List (String × String)) :
    ∀ (m : List (String × String)) (k : String),
      (l.map Prod.fst).Nodup →
      hashLookup (hashExtend m l) k = (hashLookup l k).or (hashLookup m k) := by
  induction l with
  | nil => intro m k _; simp [hashExtend, hashLookup, Option.none_or]
  | cons q t ih =>
    intro m k hnd
    rw [List.map_cons, List.nodup_cons] at hnd
    obtain ⟨hq_not, hnd'⟩ := hnd
    have hstep : hashExtend m (q :: t) = hashExtend (hashInsert m q.1 q.2) t := rfl
    rw [hstep, ih _ k hnd', hashLookup_hashInsert]
    by_cases hk : k = q.1
    · have hfind : t.find? (fun p => p.1 = k) = none := by
        rw [List.find?_eq_none]
        intro x hx hxk
        apply hq_not
        have hx1 : x.1 = k := of_decide_eq_true hxk
        rw [← hk, ← hx1]
        exact List.mem_map_of_mem Prod.fst hx
      have htt : hashLookup t k = none := by
        unfold hashLookup
        rw [hfind]
        rfl
      have hqk : (q.1 = k) = True := eq_true hk.symm
      have hhead : hashLookup (q :: t) k = some q.2 := by
        simp only [hashLookup, List.find?_cons, hqk, decide_True]
        rfl
      rw [htt, Option.none_or, if_pos hk, hhead]
      rfl
    · have hkq : (q.1 = k) = False := eq_false (fun h => hk h.symm)
      have hhead : hashLookup (q :: t) k = hashLookup t k := by
        simp only [hashLookup, List.find?_cons, hkq, decide_False]
      rw [if_neg hk, hhead]

/-- Helper: lookup in the reserved-parameter map built by the first three
inserts of `get_token`. -/
theorem hashLookup_reservedBase (c : ClientCredentials) (k : String) :
    hashLookup
        (hashInsert
          (hashInsert
            (hashInsert [] "grant_type" "client_credentials")
            "client_id" c.client_id)
          "client_secret" c.client_secret) k =
      if k = "client_secret" then some c.client_secret
      else if k = "client_id" then some c.client_id
      else if k = "grant_type" then some "client_credentials"
      else none := by
  rw [hashLookup_hashInsert, hashLookup_hashInsert, hashLookup_hashInsert]
  rfl

/-- C2: the claim says the reserved parameters win a key collision with
`extra_oauth_params`; in the code the merge is `HashMap::extend`, whose
`insert`-per-pair semantics replace existing entries, so the
`extra_oauth_params` value is the one sent.  At the concrete credentials whose
extra parameters carry `client_secret = "injected"` while the reserved client
secret is `"real-secret"`, the form body maps `client_secret` to the injected
value, not the reserved one. -/
theorem c2_reserved_value_not_sent_on_collision :
    hashLookup
        (buildFormParams ⟨"my-client", "real-secret", "http://idp.example/token",
          [], [("client_secret", "injected")]⟩) "client_secret" =
      some "injected" ∧
    ¬ hashLookup
        (buildFormParams ⟨"my-client", "real-secret", "http://idp.example/token",
          [], [("client_secret", "injected")]⟩) "client_secret" =
      some "real-secret" :=
  ⟨by decide, by decide⟩

/-- C2 (amended): the form body contains
`grant_type = client_credentials`, `client_id` and `client_secret`, merged
with `extra_oauth_params` — but on a key collision the `extra_oauth_params`
value is the one sent (extra wins, the opposite of the claimed precedence).
Keys of `extra_oauth_params` are distinct, as iterating a `HashMap` yields. -/
theorem c2_form_body_merged_extra_wins (c : ClientCredentials)
    (hnd : (c.extra_oauth_params.map Prod.fst).Nodup) :
    (∀ k v, hashLookup c.extra_oauth_params k = some v →
        hashLookup (buildFormParams c) k = some v) ∧
    (hashLookup c.extra_oauth_params "grant_type" = none →
        hashLookup (buildFormParams c) "grant_type" = some "client_credentials") ∧
    (hashLookup c.extra_oauth_params "client_id" = none →
        hashLookup (buildFormParams c) "client_id" = some c.client_id) ∧
    (hashLookup c.extra_oauth_params "client_secret" = none →
        hashLookup (buildFormParams c) "client_secret" = some c.client_secret) ∧
    (∀ k, k ≠ "grant_type" → k ≠ "client_id" → k ≠ "client_secret" →
        hashLookup c.extra_oauth_params k = none →
        hashLookup (buildFormParams c) k = none) := by
  refine ⟨?_, ?_, ?_, ?_, ?_⟩
  · intro k v h
    unfold buildFormParams
    rw [hashLookup_hashExtend _ _ _ hnd, h]
    rfl
  · intro h
    unfold buildFormParams
    rw [hashLookup_hashExtend _ _ _ hnd, h, Option.none_or,
      hashLookup_reservedBase]
    rfl
  · intro h
    unfold buildFormParams
    rw [hashLookup_hashExtend _ _ _ hnd, h, Option.none_or,
      hashLookup_reservedBase]
    rfl
  · intro h
    unfold buildFormParams
    rw [hashLookup_hashExtend _ _ _ hnd, h, Option.none_or,
      hashLookup_reservedBase]
    rfl
  · intro k h1 h2 h3 h
    unfold buildFormParams
    rw [hashLookup_hashExtend _ _ _ hnd, h, Option.none_or,
      hashLookup_reservedBase, if_neg h3, if_neg h2, if_neg h1]

/-- Witness for C2 (amended) at concrete credentials: the colliding
`client_secret` comes from the extra parameters, the non-colliding extra key
is merged in, the untouched reserved keys keep their values, and an absent
key is absent from the body. -/
theorem c2_form_body_merged_extra_wins_witness :
    hashLookup
        (buildFormParams ⟨"my-client", "real-secret", "http://idp.example/token",
          [], [("client_secret", "injected"), ("audience", "aud-1")]⟩)
        "client_secret" = some "injected" ∧
    hashLookup
        (buildFormParams ⟨"my-client", "real-secret", "http://idp.example/token",
          [], [("client_secret", "injected"), ("audience", "aud-1")]⟩)
        "audience" = some "aud-1" ∧
    hashLookup
        (buildFormParams ⟨"my-client", "real-secret", "http://idp.example/token",
          [], [("client_secret", "injected"), ("audience", "aud-1")]⟩)
        "grant_type" = some "client_credentials" ∧
    hashLookup
        (buildFormParams ⟨"my-client", "real-secret", "http://idp.example/token",
          [], [("client_secret", "injected"), ("audience", "aud-1")]⟩)
        "client_id" = some "my-client" ∧
    hashLookup
        (buildFormParams ⟨"my-client", "real-secret", "http://idp.example/token",
          [], [("client_secret", "injected"), ("audience", "aud-1")]⟩)
        "scope" = none :=
  ⟨(c2_form_body_merged_extra_wins _ (by decide)).1 "client_secret" "injected"
      (by decide),
   (c2_form_body_merged_extra_wins _ (by decide)).1 "audience" "aud-1"
      (by decide),
   (c2_form_body_merged_extra_wins _ (by decide)).2.1 (by decide),
   (c2_form_body_merged_extra_wins _ (by decide)).2.2.1 (by decide),
   (c2_form_body_merged_extra_wins _ (by decide)).2.2.2.2 "scope"
      (by decide) (by decide) (by decide) (by decide)⟩

/-- Helper: replacing the element at a valid index changes `countP` by the
difference of the two elements' predicate values. -/
theorem countP_set_get {α : Type} (p : α → Bool) :
    ∀ (l : List α) (i : Nat) (x y : α), l[i]? = some y →
      (l.set i x).countP p + (if p y then 1 else 0) =
        l.countP p + (if p x then 1 else 0) := by
  intro l
  induction l with
  | nil => intro i x y h; simp at h
  | cons a t ih =>
    intro i x y h
    cases i with
    | zero =>
      rw [List.getElem?_cons_zero, Option.some.injEq] at h
      subst h
      simp only [List.set_cons_zero, List.countP_cons]
      omega
    | succ n =>
      rw [List.getElem?_cons_succ] at h
      have := ih n x y h
      simp only [List.set_cons_succ, List.countP_cons]
      omega

/-- Helper: each atomic step of a concurrent caller keeps the measure
(fetches performed plus callers still pending) from increasing. -/
theorem concStep_measure (now : Int) (s : ConcState) (i : Nat) :
    (concStep now s i).fetchCount + pendingCallers (concStep now s i).phases ≤
      s.fetchCount + pendingCallers s.phases := by
  rcases hg : s.phases[i]? with _ | ph
  · simp [concStep, hg]
  · cases ph with
    | done => simp [concStep, hg]
    | start =>
      rcases hc : s.cache with _ | st
      · have hcount := countP_set_get (fun q => decide (q ≠ CallerPhase.done))
          s.phases i CallerPhase.needRefresh CallerPhase.start hg
        simp only [decide_not] at hcount
        simp only [concStep, hg, hc]
        unfold pendingCallers
        simp only [decide_not]
        simp at hcount
        omega
      · by_cases hlt : now < st.token_expiry
        · have hcount := countP_set_get (fun q => decide (q ≠ CallerPhase.done))
            s.phases i CallerPhase.done CallerPhase.start hg
          simp only [concStep, hg, hc, if_pos hlt]
          unfold pendingCallers
          simp only [decide_not] at hcount ⊢
          simp at hcount
          omega
        · have hcount := countP_set_get (fun q => decide (q ≠ CallerPhase.done))
            s.phases i CallerPhase.needRefresh CallerPhase.start hg
          simp only [concStep, hg, hc, if_neg hlt]
          unfold pendingCallers
          simp only [decide_not] at hcount ⊢
          simp at hcount
          omega
    | needRefresh =>
      have hcount := countP_set_get (fun q => decide (q ≠ CallerPhase.done))
        s.phases i CallerPhase.done CallerPhase.needRefresh hg
      simp only [concStep, hg]
      unfold pendingCallers
      simp only [decide_not] at hcount ⊢
      simp at hcount
      omega

/-- Helper: over a whole schedule the measure never increases. -/
theorem concRun_measure (now : Int) :
    ∀ (sched : List Nat) (s : ConcState),
      (concRun now s sched).fetchCount +
          pendingCallers (concRun now s sched).phases ≤
        s.fetchCount + pendingCallers s.phases := by
  intro sched
  induction sched with
  | nil => intro s; exact le_refl _
  | cons i sched ih =>
    intro s
    have hstep : concRun now s (i :: sched) = concRun now (concStep now s i) sched :=
      rfl
    rw [hstep]
    exact le_trans (ih (concStep now s i)) (concStep_measure now s i)

/-- C4: the claim says N concurrent `intercept` calls arriving at an empty or
expired cache produce exactly one token-endpoint request.  In the code,
`refresh_token` never re-checks the cache after acquiring the exclusive lock,
so two callers that both observed the empty cache before either refreshed each
perform their own fetch: under the schedule check(0), check(1), refresh(0),
refresh(1) the fetch count is 2, not 1. -/
theorem c4_two_concurrent_callers_two_fetches :
    (concRun 0 ⟨none, 0, [CallerPhase.start, CallerPhase.start]⟩
        [0, 1, 0, 1]).fetchCount = 2 ∧
    ¬ (concRun 0 ⟨none, 0, [CallerPhase.start, CallerPhase.start]⟩
        [0, 1, 0, 1]).fetchCount = 1 :=
  ⟨by decide, by decide⟩

/-- Helper: a caller's step never decreases the fetch count. -/
theorem concStep_fetchCount_le (now : Int) (s : ConcState) (i : Nat) :
    s.fetchCount ≤ (concStep now s i).fetchCount := by
  rcases hg : s.phases[i]? with _ | ph
  · simp [concStep, hg]
  · cases ph with
    | done => simp [concStep, hg]
    | start =>
      rcases hc : s.cache with _ | st
      · simp [concStep, hg, hc]
      · by_cases hlt : now < st.token_expiry <;> simp [concStep, hg, hc, hlt]
    | needRefresh => simp [concStep, hg]

/-- Helper: starting from an empty-or-expired cache, while no fetch has
happened yet the cache is still the initial one and no caller has finished —
a caller can only reach `done` through a fetch of its own or a cache written
by someone else's fetch.  One step preserves this. -/
theorem concStep_no_fetch_invariant (now : Int)
    (c0 : Option ClientCredentialInterceptorState)
    (hun : cacheUnusable now c0 = true) (s : ConcState) (i : Nat)
    (hinv : s.fetchCount = 0 →
      s.cache = c0 ∧ s.phases.all (fun p => p ≠ CallerPhase.done) = true) :
    (concStep now s i).fetchCount = 0 →
      (concStep now s i).cache = c0 ∧
      (concStep now s i).phases.all (fun p => p ≠ CallerPhase.done) = true := by
  intro h0
  have hmono := concStep_fetchCount_le now s i
  have hs0 : s.fetchCount = 0 := by omega
  obtain ⟨hc, hall⟩ := hinv hs0
  rcases hg : s.phases[i]? with _ | ph
  · simp only [concStep, hg]
    exact ⟨hc, hall⟩
  · have hmem : ph ∈ s.phases := List.getElem?_mem hg
    have hphnd : ph ≠ CallerPhase.done := by
      have := List.all_eq_true.mp hall ph hmem
      simpa using this
    have hallset : (s.phases.set i CallerPhase.needRefresh).all
        (fun p => p ≠ CallerPhase.done) = true := by
      rw [List.all_eq_true]
      intro x hx
      rcases List.mem_or_eq_of_mem_set hx with hx' | hx'
      · exact List.all_eq_true.mp hall x hx'
      · subst hx'
        simp
    cases ph with
    | done => exact absurd rfl hphnd
    | needRefresh =>
      exfalso
      have hf : (concStep now s i).fetchCount = s.fetchCount + 1 := by
        simp [concStep, hg]
      omega
    | start =>
      rcases hsc : s.cache with _ | st
      · simp only [concStep, hg, hsc]
        refine ⟨?_, hallset⟩
        rw [← hsc]
        exact hc
      · rw [hc] at hsc
        rw [hsc] at hun
        have hlt : ¬ now < st.token_expiry := by
          by_contra hlt
          simp [cacheUnusable, hlt] at hun
        rw [← hc] at hsc
        simp only [concStep, hg, hsc, if_neg hlt]
        refine ⟨?_, hallset⟩
        rw [← hsc]
        exact hc

/-- Helper: the no-fetch invariant holds along any schedule. -/
theorem concRun_no_fetch_invariant (now : Int)
    (c0 : Option ClientCredentialInterceptorState)
    (hun : cacheUnusable now c0 = true) :
    ∀ (sched : List Nat) (s : ConcState),
      (s.fetchCount = 0 →
        s.cache = c0 ∧ s.phases.all (fun p => p ≠ CallerPhase.done) = true) →
      ((concRun now s sched).fetchCount = 0 →
        (concRun now s sched).cache = c0 ∧
        (concRun now s sched).phases.all
          (fun p => p ≠ CallerPhase.done) = true) := by
  intro sched
  induction sched with
  | nil => intro s h; exact h
  | cons i sched ih =>
    intro s h
    have hstep : concRun now s (i :: sched) = concRun now (concStep now s i) sched :=
      rfl
    rw [hstep]
    exact ih (concStep now s i) (concStep_no_fetch_invariant now c0 hun s i h)

/-- C4 (amended): with the cache initially empty or expired, N concurrent
`intercept` calls issue between 1 and N token-endpoint requests rather than
exactly one: refreshes are serialized by the exclusive lock (one atomic step
holding the lock for the whole fetch), every interleaving performs at most N
fetches (each caller fetches at most once), and at least one fetch has
happened by the time any caller completes — a caller can only finish through
its own fetch or through a cache published by another caller's fetch, and the
counterexample schedule shows the count genuinely exceeding one. -/
theorem c4_fetches_between_one_and_number_of_callers (now : Int)
    (cache0 : Option ClientCredentialInterceptorState) (n : Nat)
    (sched : List Nat) (hun : cacheUnusable now cache0 = true) :
    (concRun now ⟨cache0, 0, List.replicate n CallerPhase.start⟩
        sched).fetchCount ≤ n ∧
    ((concRun now ⟨cache0, 0, List.replicate n CallerPhase.start⟩
        sched).phases.any (fun p => p = CallerPhase.done) = true →
      1 ≤ (concRun now ⟨cache0, 0, List.replicate n CallerPhase.start⟩
        sched).fetchCount) := by
  constructor
  · have h := concRun_measure now sched
      ⟨cache0, 0, List.replicate n CallerPhase.start⟩
    have hrep : pendingCallers (List.replicate n CallerPhase.start) = n := by
      unfold pendingCallers
      rw [List.countP_replicate]
      simp
    simp only [hrep] at h
    omega
  · intro hany
    by_contra hlt
    have h0 : (concRun now ⟨cache0, 0, List.replicate n CallerPhase.start⟩
        sched).fetchCount = 0 := by omega
    have hinit : (ConcState.mk cache0 0 (List.replicate n CallerPhase.start)).fetchCount = 0 →
        (ConcState.mk cache0 0 (List.replicate n CallerPhase.start)).cache = cache0 ∧
        (ConcState.mk cache0 0 (List.replicate n CallerPhase.start)).phases.all
          (fun p => p ≠ CallerPhase.done) = true := by
      intro _
      refine ⟨rfl, ?_⟩
      rw [List.all_eq_true]
      intro x hx
      have hx' := List.eq_of_mem_replicate hx
      subst hx'
      simp
    obtain ⟨_, hall⟩ := concRun_no_fetch_invariant now cache0 hun sched
      ⟨cache0, 0, List.replicate n CallerPhase.start⟩ hinit h0
    rw [List.any_eq_true] at hany
    obtain ⟨x, hxmem, hxdone⟩ := hany
    have hx := List.all_eq_true.mp hall x hxmem
    simp at hxdone hx
    exact hx hxdone

/-- Witness for C4 (amended) at the concrete two-caller race: the bounds hold
with the empty initial cache. -/
theorem c4_fetches_between_one_and_number_of_callers_witness :
    (concRun 0 ⟨none, 0, List.replicate 2 CallerPhase.start⟩
        [0, 1, 0, 1]).fetchCount ≤ 2 ∧
    ((concRun 0 ⟨none, 0, List.replicate 2 CallerPhase.start⟩
        [0, 1, 0, 1]).phases.any (fun p => p = CallerPhase.done) = true →
      1 ≤ (concRun 0 ⟨none, 0, List.replicate 2 CallerPhase.start⟩
        [0, 1, 0, 1]).fetchCount) :=
  c4_fetches_between_one_and_number_of_callers 0 none 2 [0, 1, 0, 1] (by decide)

/-- C9: the claim says no Display or Debug rendering ever contains the client
secret or a fetched token.  The `Display` messages and the `veil::Redact`
debug derives do satisfy this, but `CredentialRefreshError` derives the plain
`Debug`, and its `InvalidToken` variant carries the offending fetched access
token (`call` constructs it as `InvalidToken(token.clone())`), so the debug
rendering of that error value contains the token verbatim. -/
theorem c9_debug_of_invalid_token_reveals_token :
    strContains
        (debugCredentialRefreshError (.invalidToken "sk-cred-XYZ"))
        "sk-cred-XYZ" = true ∧
    strContains
        (displayCredentialRefreshError (.invalidToken "sk-cred-XYZ"))
        "sk-cred-XYZ" = false :=
  ⟨by decide, by decide⟩

/-- C9 (amended): the `Display` rendering of `InvalidToken` is a constant
(never contains the token), and the `veil::Redact` debug renderings mask every
alphanumeric character of the redacted secret/token — no masked character is
alphanumeric, and the renderings of the credentials, of the cached state and
of the static-bearer interceptor depend on the secret/token only through its
masked form (so they leak at most its length and non-alphanumeric
characters) — but the derived `Debug` of
`CredentialRefreshError::InvalidToken` embeds the offending fetched token
verbatim in its rendering. -/
theorem c9_display_constant_and_debug_masks_secrets :
    (∀ tok1 tok2 : String,
        displayCredentialRefreshError (.invalidToken tok1) =
          displayCredentialRefreshError (.invalidToken tok2)) ∧
    (∀ s : String, (veilRedact s).toList.all (fun c => !c.isAlphanum) = true) ∧
    (∀ (id s1 s2 ep : String) (eh epar : List (String × String)),
        veilRedact s1 = veilRedact s2 →
        debugClientCredentials ⟨id, s1, ep, eh, epar⟩ =
          debugClientCredentials ⟨id, s2, ep, eh, epar⟩) ∧
    (∀ (t1 t2 : String) (e : Int),
        veilRedact t1 = veilRedact t2 →
        debugClientCredentialInterceptorState ⟨t1, e⟩ =
          debugClientCredentialInterceptorState ⟨t2, e⟩) ∧
    (∀ t1 t2 : String,
        veilRedact t1 = veilRedact t2 →
        debugBearerTokenInterceptor ⟨t1⟩ = debugBearerTokenInterceptor ⟨t2⟩) ∧
    (∀ tok : String,
        debugCredentialRefreshError (.invalidToken tok) =
          "InvalidToken(" ++ quoteStr tok ++ ")") := by
  refine ⟨fun _ _ => rfl, ?_, ?_, ?_, ?_, fun _ => rfl⟩
  · intro s
    rw [List.all_eq_true]
    intro c hc
    have hc' : c ∈ s.toList.map veilRedactChar := hc
    rcases List.mem_map.mp hc' with ⟨a, _, rfl⟩
    by_cases ha : a.isAlphanum
    · simp [veilRedactChar, ha]
    · simp [veilRedactChar, ha]
  · intro id s1 s2 ep eh epar h
    simp only [debugClientCredentials, h]
  · intro t1 t2 e h
    simp only [debugClientCredentialInterceptorState, h]
  · intro t1 t2 h
    simp only [debugBearerTokenInterceptor, h]

/-- Witness for C9 (amended): two different secrets and tokens with the same
masked form render identically in every redacted debug output. -/
theorem c9_display_constant_and_debug_masks_secrets_witness :
    debugClientCredentials ⟨"my-client", "secretA1", "http://e", [], []⟩ =
      debugClientCredentials ⟨"my-client", "passwdB2", "http://e", [], []⟩ ∧
    debugClientCredentialInterceptorState ⟨"tokenAA1", 5⟩ =
      debugClientCredentialInterceptorState ⟨"tokenBB2", 5⟩ ∧
    debugBearerTokenInterceptor ⟨"Bearer abc1"⟩ =
      debugBearerTokenInterceptor ⟨"Bearer xyz9"⟩ :=
  ⟨c9_display_constant_and_debug_masks_secrets.2.2.1 "my-client" "secretA1"
      "passwdB2" "http://e" [] [] (by decide),
   c9_display_constant_and_debug_masks_secrets.2.2.2.1 "tokenAA1" "tokenBB2" 5
      (by decide),
   c9_display_constant_and_debug_masks_secrets.2.2.2.2.1 "Bearer abc1"
      "Bearer xyz9" (by decide)⟩
